import Mathlib

/-!
Shallow embedding of `src/hydrocarbon_simulator.py` (a Streamlit Monte Carlo
simulator for maximum safe hydrocarbon column height), together with theorems
settling the specification claims.

Python floats are modelled as real numbers.  The numpy random draws
(`np.random.triangular`, `np.random.uniform`) are external library calls: they
are modelled, per the spec (§4.3, "inverse-CDF method for triangular, standard
uniform draw"), as deterministic functions of a unit-uniform value `u ∈ [0,1)`
taken from an abstract stream `ℕ → ℝ`; the seeded Mersenne-Twister generator
itself is abstracted to the stream.  `np.random.triangular` validates its
bounds at each call (raising `ValueError` when `left > mode`, `mode > right`
or `left == right`); `np.random.uniform` performs no validation.  Failures
are modelled with `Except`.
-/

namespace HydrocarbonSimulator

/-- A triangular-distribution specification, a `(min, mode, max)` tuple as
produced by `triangular_input` in the source. -/
structure Tri where
  lo : ℝ
  mode : ℝ
  hi : ℝ

/-- A uniform-distribution specification, a `(min, max)` tuple as produced by
`uniform_input` in the source. -/
structure Uni where
  lo : ℝ
  hi : ℝ

/-- The configuration as entered in the form (lines 51-69 of the source),
before the unit conversions of lines 72-74. -/
structure FormConfig where
  reservoir_pressure_range : Tri
  fracture_pressure_range : Tri
  water_density_range : Uni
  hydrocarbon_density_range : Uni
  contact_angle_degrees : ℝ
  interfacial_tension_range : Tri
  pore_throat_radius_range : Tri

/-- The configuration actually consumed by the simulation loop. -/
structure SimConfig where
  reservoir_pressure_range : Tri
  fracture_pressure_range : Tri
  water_density_range : Uni
  hydrocarbon_density_range : Uni
  contact_angle_degrees : ℝ
  interfacial_tension_range : Tri
  pore_throat_radius_range : Tri

/-- Lines 72-74 of the source: pore-throat radius is converted nm → m
(`r * 1e-9` applied to each tuple component) and the two densities are
converted g/cm³ → kg/m³ (`r * 1000` applied to each tuple component). -/
def convertConfig (f : FormConfig) : SimConfig where
  reservoir_pressure_range := f.reservoir_pressure_range
  fracture_pressure_range := f.fracture_pressure_range
  water_density_range :=
    ⟨f.water_density_range.lo * 1000, f.water_density_range.hi * 1000⟩
  hydrocarbon_density_range :=
    ⟨f.hydrocarbon_density_range.lo * 1000, f.hydrocarbon_density_range.hi * 1000⟩
  contact_angle_degrees := f.contact_angle_degrees
  interfacial_tension_range := f.interfacial_tension_range
  pore_throat_radius_range :=
    ⟨f.pore_throat_radius_range.lo * 1e-9, f.pore_throat_radius_range.mode * 1e-9,
      f.pore_throat_radius_range.hi * 1e-9⟩

/-- Python `math.radians`: degrees to radians, `x * (π / 180)`. -/
noncomputable def math_radians (degrees : ℝ) : ℝ := degrees * (Real.pi / 180)

/-- Lines 76-80 of the source: the capillary-pressure-limited column height
`(2 τ cos θ) / ((ρw − ρh) · 9.81 · r)` with `θ` given in degrees. -/
noncomputable def calculate_capillary_limited_height (interfacial_tension
    contact_angle_degrees water_density hydrocarbon_density
    pore_throat_radius : ℝ) : ℝ :=
  let contact_angle_radians := math_radians contact_angle_degrees
  (2 * interfacial_tension * Real.cos contact_angle_radians) /
    ((water_density - hydrocarbon_density) * 9.81 * pore_throat_radius)

/-- Lines 82-86 of the source: the fracture-pressure-limited column height.
Both pressures are converted bar → Pa (`* 1e5`); the height is
`(Pf_pa − Pr_pa) / ((ρw − ρh) · 9.81)`. -/
noncomputable def calculate_fracture_pressure_limited_height (fracture_pressure
    reservoir_pressure water_density hydrocarbon_density : ℝ) : ℝ :=
  let fracture_pressure_pa := fracture_pressure * 1e5
  let reservoir_pressure_pa := reservoir_pressure * 1e5
  let max_buoyancy_pressure := fracture_pressure_pa - reservoir_pressure_pa
  max_buoyancy_pressure / ((water_density - hydrocarbon_density) * 9.81)

/-- Modelled from the spec: the value of one `np.random.triangular` draw, the
inverse-CDF transform of a unit-uniform value `u` (spec §4.3 specifies the
inverse-CDF method for triangular draws; numpy itself is an external library
not in this repository).  With `c = (mode − lo)/(hi − lo)`, a draw is
`lo + √(u (mode − lo)(hi − lo))` when `u ≤ c` and
`hi − √((1 − u)(hi − mode)(hi − lo))` otherwise. -/
noncomputable def np_triangular_value (t : Tri) (u : ℝ) : ℝ :=
  let base := t.hi - t.lo
  let leftbase := t.mode - t.lo
  let c := leftbase / base
  if u ≤ c then t.lo + Real.sqrt (u * (leftbase * base))
  else t.hi - Real.sqrt ((1 - u) * ((t.hi - t.mode) * base))

/-- Modelled from the spec: `np.random.triangular` validates its bounds on
every call, raising `ValueError("left > mode")`, `ValueError("mode > right")`
or `ValueError("left == right")`, and otherwise returns an inverse-CDF draw. -/
noncomputable def np_random_triangular (t : Tri) (u : ℝ) : Except String ℝ :=
  if t.lo > t.mode then .error "left > mode"
  else if t.mode > t.hi then .error "mode > right"
  else if t.lo = t.hi then .error "left == right"
  else .ok (np_triangular_value t u)

/-- Modelled from the spec: the value of one `np.random.uniform` draw,
`lo + (hi − lo) · u` for a unit-uniform `u`.  `np.random.uniform` performs no
bounds validation, so the draw is total even when `lo > hi`. -/
noncomputable def np_random_uniform (d : Uni) (u : ℝ) : ℝ :=
  d.lo + (d.hi - d.lo) * u

/-- Whether every `np.random.triangular` call made by one loop iteration
succeeds: all four triangular ranges of the configuration pass numpy's
per-call bounds check.  (The uniform ranges are never checked.) -/
def TriOk (t : Tri) : Prop := t.lo ≤ t.mode ∧ t.mode ≤ t.hi ∧ t.lo ≠ t.hi

/-- All four triangular ranges of a configuration pass numpy's check. -/
def DrawsOk (cfg : SimConfig) : Prop :=
  TriOk cfg.interfacial_tension_range ∧ TriOk cfg.pore_throat_radius_range ∧
    TriOk cfg.fracture_pressure_range ∧ TriOk cfg.reservoir_pressure_range

/-- One drawn realization: the seven sampled/fixed input quantities of lines
110-116 of the source. -/
structure Realization where
  interfacial_tension : ℝ
  contact_angle_degrees : ℝ
  water_density : ℝ
  hydrocarbon_density : ℝ
  pore_throat_radius : ℝ
  fracture_pressure : ℝ
  reservoir_pressure : ℝ

/-- The capillary height computed for a realization (lines 126-128). -/
noncomputable def capillaryHeightOf (r : Realization) : ℝ :=
  calculate_capillary_limited_height r.interfacial_tension
    r.contact_angle_degrees r.water_density r.hydrocarbon_density
    r.pore_throat_radius

/-- The fracture height computed for a realization (lines 129-131). -/
noncomputable def fractureHeightOf (r : Realization) : ℝ :=
  calculate_fracture_pressure_limited_height r.fracture_pressure
    r.reservoir_pressure r.water_density r.hydrocarbon_density

/-- The per-realization reduced height, `min(capillary_height,
fracture_height)` (line 133). -/
noncomputable def maxHeightOf (r : Realization) : ℝ :=
  min (capillaryHeightOf r) (fractureHeightOf r)

/-- The two binding-factor categories, keys of the `limiting_factors`
dictionary (line 100). -/
inductive LimitingFactor where
  | capillary_pressure
  | fracture_pressure
deriving DecidableEq

/-- Which tally a realization increments (lines 136-139): `Capillary pressure`
exactly when `capillary_height < fracture_height`, `Fracture pressure`
otherwise, so a tie goes to `Fracture pressure`. -/
noncomputable def limitingFactorOf (r : Realization) : LimitingFactor :=
  if capillaryHeightOf r < fractureHeightOf r then .capillary_pressure
  else .fracture_pressure

/-- The `limiting_factors` tally dictionary (line 100). -/
structure Tally where
  capillary_pressure : ℕ
  fracture_pressure : ℕ
deriving DecidableEq

/-- The accumulated traces of the simulation loop (lines 99-107). -/
structure Traces where
  max_heights : List ℝ
  limiting_factors : Tally
  interfacial_tensions : List ℝ
  contact_angles : List ℝ
  water_densities : List ℝ
  hydrocarbon_densities : List ℝ
  pore_throat_radii : List ℝ
  fracture_pressures : List ℝ
  reservoir_pressures : List ℝ

/-- The empty traces the loop starts from (lines 99-107). -/
def Traces.empty : Traces :=
  ⟨[], ⟨0, 0⟩, [], [], [], [], [], [], []⟩

/-- One loop iteration body after the draws succeeded (lines 118-139): append
each input to its trace, compute the two heights, append
`min(capillary_height, fracture_height)` to `max_heights`, and increment the
`Capillary pressure` tally when `capillary_height < fracture_height`, the
`Fracture pressure` tally otherwise. -/
noncomputable def pushRealization (acc : Traces) (r : Realization) : Traces :=
  let capillary_height := capillaryHeightOf r
  let fracture_height := fractureHeightOf r
  let max_height := min capillary_height fracture_height
  { max_heights := acc.max_heights ++ [max_height]
    limiting_factors :=
      if capillary_height < fracture_height then
        ⟨acc.limiting_factors.capillary_pressure + 1,
          acc.limiting_factors.fracture_pressure⟩
      else
        ⟨acc.limiting_factors.capillary_pressure,
          acc.limiting_factors.fracture_pressure + 1⟩
    interfacial_tensions := acc.interfacial_tensions ++ [r.interfacial_tension]
    contact_angles := acc.contact_angles ++ [r.contact_angle_degrees]
    water_densities := acc.water_densities ++ [r.water_density]
    hydrocarbon_densities := acc.hydrocarbon_densities ++ [r.hydrocarbon_density]
    pore_throat_radii := acc.pore_throat_radii ++ [r.pore_throat_radius]
    fracture_pressures := acc.fracture_pressures ++ [r.fracture_pressure]
    reservoir_pressures := acc.reservoir_pressures ++ [r.reservoir_pressure] }

/-- The draws of one loop iteration (lines 110-116), in the fixed source
order: interfacial tension (triangular), contact angle (not sampled, the
fixed scalar), water density (uniform), hydrocarbon density (uniform),
pore-throat radius (triangular), fracture pressure (triangular), reservoir
pressure (triangular).  Each random call consumes the next value of the
unit-uniform stream `u`, starting at position `pos`; a triangular bounds
failure aborts the iteration exactly where the source raises. -/
noncomputable def drawRealization (cfg : SimConfig) (u : ℕ → ℝ) (pos : ℕ) :
    Except String Realization :=
  match np_random_triangular cfg.interfacial_tension_range (u pos) with
  | .error e => .error e
  | .ok interfacial_tension =>
    let contact_angle_degrees := cfg.contact_angle_degrees
    let water_density := np_random_uniform cfg.water_density_range (u (pos + 1))
    let hydrocarbon_density :=
      np_random_uniform cfg.hydrocarbon_density_range (u (pos + 2))
    match np_random_triangular cfg.pore_throat_radius_range (u (pos + 3)) with
    | .error e => .error e
    | .ok pore_throat_radius =>
      match np_random_triangular cfg.fracture_pressure_range (u (pos + 4)) with
      | .error e => .error e
      | .ok fracture_pressure =>
        match np_random_triangular cfg.reservoir_pressure_range (u (pos + 5)) with
        | .error e => .error e
        | .ok reservoir_pressure =>
          .ok ⟨interfacial_tension, contact_angle_degrees, water_density,
            hydrocarbon_density, pore_throat_radius, fracture_pressure,
            reservoir_pressure⟩

/-- The simulation loop (lines 109-139): `n` remaining iterations, reading the
unit-uniform stream from position `pos` (six values per iteration), starting
from the accumulated traces `acc`. -/
noncomputable def simLoop (cfg : SimConfig) (u : ℕ → ℝ) :
    ℕ → ℕ → Traces → Except String Traces
  | 0, _, acc => .ok acc
  | Nat.succ n, pos, acc =>
    match drawRealization cfg u pos with
    | .error e => .error e
    | .ok r => simLoop cfg u n (pos + 6) (pushRealization acc r)

/-- A whole `Run Simulation` click (lines 95-139, stopping before the
statistics): seed the random source — modelled as selecting the unit-uniform
stream determined by the seed — and run `num_simulations` iterations from the
empty traces. -/
noncomputable def runSimulation (streamOfSeed : ℤ → ℕ → ℝ) (cfg : SimConfig)
    (seed_value : ℤ) (num_simulations : ℕ) : Except String Traces :=
  simLoop cfg (streamOfSeed seed_value) num_simulations 0 Traces.empty

/-- The inputs one loop iteration draws when every `np.random.triangular`
bounds check passes: the `.ok` payload of `drawRealization cfg u pos`. -/
noncomputable def realizationAt (cfg : SimConfig) (u : ℕ → ℝ) (pos : ℕ) :
    Realization where
  interfacial_tension := np_triangular_value cfg.interfacial_tension_range (u pos)
  contact_angle_degrees := cfg.contact_angle_degrees
  water_density := np_random_uniform cfg.water_density_range (u (pos + 1))
  hydrocarbon_density := np_random_uniform cfg.hydrocarbon_density_range (u (pos + 2))
  pore_throat_radius := np_triangular_value cfg.pore_throat_radius_range (u (pos + 3))
  fracture_pressure := np_triangular_value cfg.fracture_pressure_range (u (pos + 4))
  reservoir_pressure := np_triangular_value cfg.reservoir_pressure_range (u (pos + 5))

/-- A stream of unit-uniform values: every entry lies in `[0, 1)`, as the
values drawn from numpy's underlying generator do. -/
def IsUnitStream (u : ℕ → ℝ) : Prop := ∀ n, 0 ≤ u n ∧ u n < 1

/-- The form defaults of lines 51-63 of the source: reservoir pressure
Triangular(760, 770, 780) bar, fracture pressure Triangular(795, 806, 820)
bar, water density Uniform(1.035, 1.035) g/cm³, hydrocarbon density
Uniform(0.3268, 0.3268) g/cm³, contact angle 0°, interfacial tension
Triangular(0.03, 0.04, 0.05) N/m, pore-throat radius Triangular(10, 20, 30)
nm. -/
def defaultFormConfig : FormConfig :=
  ⟨⟨760, 770, 780⟩, ⟨795, 806, 820⟩, ⟨1.035, 1.035⟩, ⟨0.3268, 0.3268⟩, 0,
    ⟨0.03, 0.04, 0.05⟩, ⟨10, 20, 30⟩⟩

/-- The default configuration after the unit conversions of lines 72-74. -/
noncomputable def defaultSimConfig : SimConfig := convertConfig defaultFormConfig

/-- A configuration identical to the defaults except that the water-density
uniform range is inverted (`min > max`), i.e. a malformed uniform spec. -/
noncomputable def badUniformConfig : SimConfig :=
  { defaultSimConfig with water_density_range := ⟨2000, 1000⟩ }

/-- The constant unit-uniform stream sitting at one half. -/
noncomputable def halfStream : ℕ → ℝ := fun _ => 1 / 2

/-- A seed-to-stream table where every seed selects the constant one-half
stream. -/
noncomputable def halfStreamOfSeed : ℤ → ℕ → ℝ := fun _ => halfStream

/-- A configuration whose fracture-pressure support (100-102 bar) lies
entirely below its reservoir-pressure support (200-202 bar), with positive
capillary inputs. -/
noncomputable def invertedPressuresConfig : SimConfig :=
  ⟨⟨200, 201, 202⟩, ⟨100, 101, 102⟩, ⟨1000, 1000⟩, ⟨300, 300⟩, 0,
    ⟨0.03, 0.04, 0.05⟩, ⟨1e-8, 2e-8, 3e-8⟩⟩

/-- A configuration whose water density (300 kg/m³) is below its hydrocarbon
density (1000 kg/m³): every draw is non-physical. -/
noncomputable def invertedDensityConfig : SimConfig :=
  ⟨⟨760, 770, 780⟩, ⟨795, 806, 820⟩, ⟨300, 300⟩, ⟨1000, 1000⟩, 0,
    ⟨0.03, 0.04, 0.05⟩, ⟨1e-8, 2e-8, 3e-8⟩⟩

/-- The traces a successful run produces: the fold of `pushRealization` over
the `n` drawn realizations. -/
noncomputable def okRunTraces (cfg : SimConfig) (u : ℕ → ℝ) (n : ℕ) : Traces :=
  ((List.range n).map (fun k => realizationAt cfg u (0 + 6 * k))).foldl
    pushRealization Traces.empty

/-- The linear interpolation at virtual index `vi` into a (sorted) array, as
performed by `np.percentile` with its default interpolation: with
`j = ⌊vi⌋` and `g = vi − ⌊vi⌋`, the value is `arr[j] + g·(arr[j+1] − arr[j])`
(the `j+1` access clipped to `arr[j]` at the upper edge, where `g = 0`). -/
noncomputable def percInterp (arr : List ℝ) (vi : ℝ) : ℝ :=
  let j : ℕ := (⌊vi⌋).toNat
  let g : ℝ := vi - ⌊vi⌋
  let below := arr.getD j 0
  let above := arr.getD (j + 1) below
  below + g * (above - below)

/-- Modelled from the spec: `np.percentile(a, q)` (an external numpy routine)
with the default linear interpolation — sort the data, form the virtual index
`q/100 · (n − 1)`, and linearly interpolate between the two neighbouring
order statistics. -/
noncomputable def np_percentile (a : List ℝ) (q : ℝ) : ℝ :=
  percInterp a.mergeSort (q / 100 * ((a.length : ℝ) - 1))

/-- Modelled from the spec: `np.mean(a)` (an external numpy routine), the
arithmetic mean `sum / length`. -/
noncomputable def np_mean (a : List ℝ) : ℝ := a.sum / a.length

/-- The three derived scalar statistics of lines 141-143 of the source, under
the names the source binds them to (and under which the rendering layer
labels them "P10", "Mean", "P90"). -/
structure SummaryStats where
  p10 : ℝ
  mean : ℝ
  p90 : ℝ

/-- Lines 141-143 of the source: `p10 = np.percentile(max_heights, 90)`,
`mean = np.mean(max_heights)`, `p90 = np.percentile(max_heights, 10)`. -/
noncomputable def summaryStats (max_heights : List ℝ) : SummaryStats where
  p10 := np_percentile max_heights 90
  mean := np_mean max_heights
  p90 := np_percentile max_heights 10

/-- The binding-factor relative frequency of line 176 of the source:
`count / num_simulations * 100`. -/
noncomputable def limitingFactorPercentage (count num_simulations : ℕ) : ℝ :=
  (count : ℝ) / (num_simulations : ℝ) * 100

/- ### Helper lemmas about sorted-list indexing and the interpolation -/

lemma getD_irrel {l : List ℝ} {i : ℕ} (h : i < l.length) (d d2 : ℝ) :
    l.getD i d = l.getD i d2 := by
  simp [List.getD_eq_getElem?_getD, List.getElem?_eq_getElem h]

lemma getD_of_len_le {l : List ℝ} {i : ℕ} (h : l.length ≤ i) (d : ℝ) :
    l.getD i d = d := by
  simp [List.getD_eq_getElem?_getD, List.getElem?_eq_none h]

lemma sorted_getD_mono {l : List ℝ} (hs : l.Sorted (· ≤ ·)) {i j : ℕ}
    (hij : i ≤ j) (hj : j < l.length) : l.getD i 0 ≤ l.getD j 0 := by
  have hi : i < l.length := lt_of_le_of_lt hij hj
  rw [List.getD_eq_getElem?_getD, List.getElem?_eq_getElem hi,
    List.getD_eq_getElem?_getD, List.getElem?_eq_getElem hj]
  exact hs.rel_get_of_le (Fin.mk_le_mk.mpr hij)

/-- On a sorted array, the numpy linear interpolation is monotone in the
virtual index over the valid range `[0, n−1]`. -/
lemma percInterp_mono {arr : List ℝ} (hs : arr.Sorted (· ≤ ·)) {v1 v2 : ℝ}
    (h0 : 0 ≤ v1) (h12 : v1 ≤ v2) (hn : v2 ≤ (arr.length : ℝ) - 1) :
    percInterp arr v1 ≤ percInterp arr v2 := by
  have h02 : (0 : ℝ) ≤ v2 := le_trans h0 h12
  have hlen : 1 ≤ arr.length := by
    have hr : (1 : ℝ) ≤ (arr.length : ℝ) := by linarith
    exact_mod_cast hr
  -- floors are nonnegative and bounded by length − 1
  have hf1 : (0 : ℤ) ≤ ⌊v1⌋ := Int.floor_nonneg.mpr h0
  have hf2 : (0 : ℤ) ≤ ⌊v2⌋ := Int.floor_nonneg.mpr h02
  have hcast1 : ((⌊v1⌋.toNat : ℤ) : ℝ) = (⌊v1⌋ : ℝ) := by
    rw [Int.toNat_of_nonneg hf1]
  have hcast2 : ((⌊v2⌋.toNat : ℤ) : ℝ) = (⌊v2⌋ : ℝ) := by
    rw [Int.toNat_of_nonneg hf2]
  have hfloorn : (⌊((arr.length : ℝ) - 1)⌋ : ℤ) = (arr.length : ℤ) - 1 := by
    rw [show ((arr.length : ℝ) - 1) = (((arr.length : ℤ) - 1 : ℤ) : ℝ) by
      push_cast; ring, Int.floor_intCast]
  have hj2top : ⌊v2⌋ ≤ (arr.length : ℤ) - 1 := by
    calc ⌊v2⌋ ≤ ⌊((arr.length : ℝ) - 1)⌋ := Int.floor_le_floor hn
    _ = (arr.length : ℤ) - 1 := hfloorn
  have hj1top : ⌊v1⌋ ≤ (arr.length : ℤ) - 1 :=
    le_trans (Int.floor_le_floor h12) hj2top
  have hj1lt : ⌊v1⌋.toNat < arr.length := by omega
  have hj2lt : ⌊v2⌋.toNat < arr.length := by omega
  have hg1lo : (0 : ℝ) ≤ v1 - ⌊v1⌋ := by
    have := Int.floor_le v1; linarith
  have hg1hi : v1 - ⌊v1⌋ ≤ 1 := by
    have := Int.lt_floor_add_one v1; linarith
  have hg2lo : (0 : ℝ) ≤ v2 - ⌊v2⌋ := by
    have := Int.floor_le v2; linarith
  have hg2hi : v2 - ⌊v2⌋ ≤ 1 := by
    have := Int.lt_floor_add_one v2; linarith
  -- the interpolation cell is nondecreasing: below ≤ above
  have habove : ∀ j : ℕ, j < arr.length →
      arr.getD j 0 ≤ arr.getD (j + 1) (arr.getD j 0) := by
    intro j hj
    rcases lt_or_le (j + 1) arr.length with hlt | hle
    · rw [getD_irrel hlt _ 0]
      exact sorted_getD_mono hs (Nat.le_succ j) hlt
    · rw [getD_of_len_le hle]
  simp only [percInterp]
  rcases eq_or_lt_of_le (Int.floor_le_floor h12) with heq | hlt
  · -- same cell: the difference is (g2 − g1) · (above − below) ≥ 0
    rw [heq]
    have hbelow := habove ⌊v2⌋.toNat hj2lt
    have hgle : v1 - ⌊v2⌋ ≤ v2 - ⌊v2⌋ := by linarith
    nlinarith [hbelow, hgle, sub_nonneg.mpr hbelow]
  · -- different cells: value₁ ≤ arr[j₁+1] ≤ arr[j₂] ≤ value₂
    have hj1j2 : ⌊v1⌋.toNat + 1 ≤ ⌊v2⌋.toNat := by omega
    have hstep : arr.getD (⌊v1⌋.toNat + 1) (arr.getD ⌊v1⌋.toNat 0) ≤
        arr.getD ⌊v2⌋.toNat 0 := by
      have hlt1 : ⌊v1⌋.toNat + 1 < arr.length := lt_of_le_of_lt hj1j2 hj2lt
      rw [getD_irrel hlt1 _ 0]
      exact sorted_getD_mono hs hj1j2 hj2lt
    have hup : arr.getD ⌊v1⌋.toNat 0 +
        (v1 - ⌊v1⌋) * (arr.getD (⌊v1⌋.toNat + 1) (arr.getD ⌊v1⌋.toNat 0) -
          arr.getD ⌊v1⌋.toNat 0) ≤
        arr.getD (⌊v1⌋.toNat + 1) (arr.getD ⌊v1⌋.toNat 0) := by
      nlinarith [habove ⌊v1⌋.toNat hj1lt]
    have hdown : arr.getD ⌊v2⌋.toNat 0 ≤ arr.getD ⌊v2⌋.toNat 0 +
        (v2 - ⌊v2⌋) * (arr.getD (⌊v2⌋.toNat + 1) (arr.getD ⌊v2⌋.toNat 0) -
          arr.getD ⌊v2⌋.toNat 0) := by
      nlinarith [habove ⌊v2⌋.toNat hj2lt]
    calc arr.getD ⌊v1⌋.toNat 0 +
        (v1 - ⌊v1⌋) * (arr.getD (⌊v1⌋.toNat + 1) (arr.getD ⌊v1⌋.toNat 0) -
          arr.getD ⌊v1⌋.toNat 0) ≤
        arr.getD (⌊v1⌋.toNat + 1) (arr.getD ⌊v1⌋.toNat 0) := hup
      _ ≤ arr.getD ⌊v2⌋.toNat 0 := hstep
      _ ≤ _ := hdown

/- ### Characterization of the sampler calls -/

lemma np_random_triangular_eq_ok {t : Tri} (h : TriOk t) (u : ℝ) :
    np_random_triangular t u = .ok (np_triangular_value t u) := by
  obtain ⟨h1, h2, h3⟩ := h
  rw [np_random_triangular, if_neg (not_lt.mpr h1), if_neg (not_lt.mpr h2),
    if_neg h3]

lemma np_random_triangular_is_error {t : Tri} (h : ¬ TriOk t) (u : ℝ) :
    ∃ e, np_random_triangular t u = .error e := by
  rw [np_random_triangular]
  by_cases c1 : t.lo > t.mode
  · exact ⟨_, by rw [if_pos c1]⟩
  · by_cases c2 : t.mode > t.hi
    · exact ⟨_, by rw [if_neg c1, if_pos c2]⟩
    · have c3 : t.lo = t.hi := by
        by_contra c3
        exact h ⟨not_lt.mp c1, not_lt.mp c2, c3⟩
      exact ⟨_, by rw [if_neg c1, if_neg c2, if_pos c3]⟩

/-- An in-range triangular draw stays inside the configured support. -/
lemma np_triangular_value_mem {t : Tri} (h : TriOk t) {u : ℝ} (h0 : 0 ≤ u)
    (h1 : u < 1) :
    t.lo ≤ np_triangular_value t u ∧ np_triangular_value t u ≤ t.hi := by
  obtain ⟨hlm, hmh, hne⟩ := h
  have hbase : 0 < t.hi - t.lo :=
    sub_pos.mpr (lt_of_le_of_ne (le_trans hlm hmh) hne)
  have hleftbase : 0 ≤ t.mode - t.lo := by linarith
  have hrightbase : 0 ≤ t.hi - t.mode := by linarith
  rw [np_triangular_value]
  by_cases hc : u ≤ (t.mode - t.lo) / (t.hi - t.lo)
  · rw [if_pos hc]
    have hub : u * (t.hi - t.lo) ≤ t.mode - t.lo := by
      rw [← le_div_iff hbase]; exact hc
    have harg : u * ((t.mode - t.lo) * (t.hi - t.lo)) ≤ (t.mode - t.lo) ^ 2 := by
      nlinarith
    have hs : Real.sqrt (u * ((t.mode - t.lo) * (t.hi - t.lo))) ≤ t.mode - t.lo := by
      calc Real.sqrt (u * ((t.mode - t.lo) * (t.hi - t.lo))) ≤
          Real.sqrt ((t.mode - t.lo) ^ 2) := Real.sqrt_le_sqrt harg
        _ = t.mode - t.lo := Real.sqrt_sq hleftbase
    constructor
    · nlinarith [Real.sqrt_nonneg (u * ((t.mode - t.lo) * (t.hi - t.lo)))]
    · linarith
  · rw [if_neg hc]
    push_neg at hc
    have hub : (1 - u) * (t.hi - t.lo) ≤ t.hi - t.mode := by
      have : t.mode - t.lo < u * (t.hi - t.lo) := by
        rw [← div_lt_iff hbase]; exact hc
      nlinarith
    have harg : (1 - u) * ((t.hi - t.mode) * (t.hi - t.lo)) ≤ (t.hi - t.mode) ^ 2 := by
      nlinarith
    have hs : Real.sqrt ((1 - u) * ((t.hi - t.mode) * (t.hi - t.lo))) ≤ t.hi - t.mode := by
      calc Real.sqrt ((1 - u) * ((t.hi - t.mode) * (t.hi - t.lo))) ≤
          Real.sqrt ((t.hi - t.mode) ^ 2) := Real.sqrt_le_sqrt harg
        _ = t.hi - t.mode := Real.sqrt_sq hrightbase
    constructor
    · linarith
    · nlinarith [Real.sqrt_nonneg ((1 - u) * ((t.hi - t.mode) * (t.hi - t.lo)))]

/-- A uniform draw stays inside the configured support (when the range is not
inverted). -/
lemma np_random_uniform_mem {d : Uni} (h : d.lo ≤ d.hi) {u : ℝ} (h0 : 0 ≤ u)
    (h1 : u < 1) :
    d.lo ≤ np_random_uniform d u ∧ np_random_uniform d u ≤ d.hi := by
  rw [np_random_uniform]
  constructor
  · nlinarith
  · nlinarith

/- ### Characterization of one loop iteration and of the loop -/

lemma drawRealization_eq_ok {cfg : SimConfig} (h : DrawsOk cfg) (u : ℕ → ℝ)
    (pos : ℕ) : drawRealization cfg u pos = .ok (realizationAt cfg u pos) := by
  obtain ⟨h1, h2, h3, h4⟩ := h
  simp only [drawRealization, np_random_triangular_eq_ok h1 (u pos),
    np_random_triangular_eq_ok h2 (u (pos + 3)),
    np_random_triangular_eq_ok h3 (u (pos + 4)),
    np_random_triangular_eq_ok h4 (u (pos + 5))]
  rfl

lemma drawRealization_is_error {cfg : SimConfig} (h : ¬ DrawsOk cfg)
    (u : ℕ → ℝ) (pos : ℕ) : ∃ e, drawRealization cfg u pos = .error e := by
  by_cases h1 : TriOk cfg.interfacial_tension_range
  · by_cases h2 : TriOk cfg.pore_throat_radius_range
    · by_cases h3 : TriOk cfg.fracture_pressure_range
      · by_cases h4 : TriOk cfg.reservoir_pressure_range
        · exact absurd ⟨h1, h2, h3, h4⟩ h
        · obtain ⟨e, he⟩ := np_random_triangular_is_error h4 (u (pos + 5))
          exact ⟨e, by
            simp only [drawRealization, np_random_triangular_eq_ok h1 (u pos),
              np_random_triangular_eq_ok h2 (u (pos + 3)),
              np_random_triangular_eq_ok h3 (u (pos + 4)), he]⟩
      · obtain ⟨e, he⟩ := np_random_triangular_is_error h3 (u (pos + 4))
        exact ⟨e, by
          simp only [drawRealization, np_random_triangular_eq_ok h1 (u pos),
            np_random_triangular_eq_ok h2 (u (pos + 3)), he]⟩
    · obtain ⟨e, he⟩ := np_random_triangular_is_error h2 (u (pos + 3))
      exact ⟨e, by
        simp only [drawRealization, np_random_triangular_eq_ok h1 (u pos), he]⟩
  · obtain ⟨e, he⟩ := np_random_triangular_is_error h1 (u pos)
    exact ⟨e, by simp only [drawRealization, he]⟩

lemma range_map_succ_shift {α : Type} (f : ℕ → α) (n : ℕ) :
    (List.range (n + 1)).map f = f 0 :: (List.range n).map (fun k => f (k + 1)) := by
  rw [List.range_succ_eq_map, List.map_cons, List.map_map]
  rfl

/-- When every triangular range is well-formed the loop succeeds, and its
result is the fold of `pushRealization` over the drawn realizations. -/
lemma simLoop_eq_ok {cfg : SimConfig} (h : DrawsOk cfg) (u : ℕ → ℝ) :
    ∀ (n pos : ℕ) (acc : Traces),
      simLoop cfg u n pos acc =
        .ok (((List.range n).map (fun k => realizationAt cfg u (pos + 6 * k))).foldl
          pushRealization acc) := by
  intro n
  induction n with
  | zero => intro pos acc; simp [simLoop]
  | succ n ih =>
    intro pos acc
    rw [simLoop, drawRealization_eq_ok h u pos]
    show simLoop cfg u n (pos + 6) (pushRealization acc (realizationAt cfg u pos)) = _
    rw [ih (pos + 6) (pushRealization acc (realizationAt cfg u pos))]
    rw [range_map_succ_shift (fun k => realizationAt cfg u (pos + 6 * k)) n,
      List.foldl_cons]
    have harith : ∀ k, pos + 6 * (k + 1) = pos + 6 + 6 * k := fun k => by ring
    simp only [harith, Nat.mul_zero, Nat.add_zero]

/-- When some triangular range is malformed, any run of at least one
iteration fails (numpy raises inside the first iteration), producing no
traces at all. -/
lemma simLoop_is_error {cfg : SimConfig} (h : ¬ DrawsOk cfg) (u : ℕ → ℝ)
    {n : ℕ} (hn : 1 ≤ n) (pos : ℕ) (acc : Traces) :
    ∃ e, simLoop cfg u n pos acc = .error e := by
  obtain ⟨m, rfl⟩ : ∃ m, n = m + 1 := ⟨n - 1, by omega⟩
  obtain ⟨e, he⟩ := drawRealization_is_error h u pos
  exact ⟨e, by rw [simLoop, he]⟩

/- ### The fold of pushRealization, field by field -/

lemma foldl_push_field (p : Traces → List ℝ) (v : Realization → ℝ)
    (hp : ∀ acc r, p (pushRealization acc r) = p acc ++ [v r])
    (rs : List Realization) :
    ∀ acc, p (rs.foldl pushRealization acc) = p acc ++ rs.map v := by
  induction rs with
  | nil => intro acc; simp
  | cons r rs ih =>
    intro acc
    rw [List.foldl_cons, ih, hp, List.map_cons, List.append_assoc,
      List.singleton_append]

lemma foldl_push_max_heights (rs : List Realization) (acc : Traces) :
    (rs.foldl pushRealization acc).max_heights =
      acc.max_heights ++ rs.map maxHeightOf :=
  foldl_push_field Traces.max_heights maxHeightOf
    (fun acc r => by
      by_cases hc : capillaryHeightOf r < fractureHeightOf r <;>
        simp [pushRealization, maxHeightOf, hc]) rs acc

lemma foldl_push_interfacial_tensions (rs : List Realization) (acc : Traces) :
    (rs.foldl pushRealization acc).interfacial_tensions =
      acc.interfacial_tensions ++ rs.map Realization.interfacial_tension :=
  foldl_push_field Traces.interfacial_tensions Realization.interfacial_tension
    (fun acc r => by
      by_cases hc : capillaryHeightOf r < fractureHeightOf r <;>
        simp [pushRealization, hc]) rs acc

lemma foldl_push_contact_angles (rs : List Realization) (acc : Traces) :
    (rs.foldl pushRealization acc).contact_angles =
      acc.contact_angles ++ rs.map Realization.contact_angle_degrees :=
  foldl_push_field Traces.contact_angles Realization.contact_angle_degrees
    (fun acc r => by
      by_cases hc : capillaryHeightOf r < fractureHeightOf r <;>
        simp [pushRealization, hc]) rs acc

lemma foldl_push_water_densities (rs : List Realization) (acc : Traces) :
    (rs.foldl pushRealization acc).water_densities =
      acc.water_densities ++ rs.map Realization.water_density :=
  foldl_push_field Traces.water_densities Realization.water_density
    (fun acc r => by
      by_cases hc : capillaryHeightOf r < fractureHeightOf r <;>
        simp [pushRealization, hc]) rs acc

lemma foldl_push_hydrocarbon_densities (rs : List Realization) (acc : Traces) :
    (rs.foldl pushRealization acc).hydrocarbon_densities =
      acc.hydrocarbon_densities ++ rs.map Realization.hydrocarbon_density :=
  foldl_push_field Traces.hydrocarbon_densities Realization.hydrocarbon_density
    (fun acc r => by
      by_cases hc : capillaryHeightOf r < fractureHeightOf r <;>
        simp [pushRealization, hc]) rs acc

lemma foldl_push_pore_throat_radii (rs : List Realization) (acc : Traces) :
    (rs.foldl pushRealization acc).pore_throat_radii =
      acc.pore_throat_radii ++ rs.map Realization.pore_throat_radius :=
  foldl_push_field Traces.pore_throat_radii Realization.pore_throat_radius
    (fun acc r => by
      by_cases hc : capillaryHeightOf r < fractureHeightOf r <;>
        simp [pushRealization, hc]) rs acc

lemma foldl_push_fracture_pressures (rs : List Realization) (acc : Traces) :
    (rs.foldl pushRealization acc).fracture_pressures =
      acc.fracture_pressures ++ rs.map Realization.fracture_pressure :=
  foldl_push_field Traces.fracture_pressures Realization.fracture_pressure
    (fun acc r => by
      by_cases hc : capillaryHeightOf r < fractureHeightOf r <;>
        simp [pushRealization, hc]) rs acc

lemma foldl_push_reservoir_pressures (rs : List Realization) (acc : Traces) :
    (rs.foldl pushRealization acc).reservoir_pressures =
      acc.reservoir_pressures ++ rs.map Realization.reservoir_pressure :=
  foldl_push_field Traces.reservoir_pressures Realization.reservoir_pressure
    (fun acc r => by
      by_cases hc : capillaryHeightOf r < fractureHeightOf r <;>
        simp [pushRealization, hc]) rs acc

lemma foldl_push_tally_total (rs : List Realization) :
    ∀ acc : Traces,
      (rs.foldl pushRealization acc).limiting_factors.capillary_pressure +
        (rs.foldl pushRealization acc).limiting_factors.fracture_pressure =
      acc.limiting_factors.capillary_pressure +
        acc.limiting_factors.fracture_pressure + rs.length := by
  induction rs with
  | nil => intro acc; simp
  | cons r rs ih =>
    intro acc
    rw [List.foldl_cons, ih]
    by_cases hc : capillaryHeightOf r < fractureHeightOf r <;>
      simp [pushRealization, hc] <;> omega

lemma foldl_push_tally_cap (rs : List Realization) :
    ∀ acc : Traces,
      (rs.foldl pushRealization acc).limiting_factors.capillary_pressure =
      acc.limiting_factors.capillary_pressure +
        rs.countP (fun r => decide (capillaryHeightOf r < fractureHeightOf r)) := by
  induction rs with
  | nil => intro acc; simp
  | cons r rs ih =>
    intro acc
    rw [List.foldl_cons, ih, List.countP_cons]
    by_cases hc : capillaryHeightOf r < fractureHeightOf r <;>
      simp [pushRealization, hc] <;> omega

lemma getD_map_range (f : ℕ → ℝ) {n i : ℕ} (h : i < n) :
    ((List.range n).map f).getD i 0 = f i := by
  simp [List.getD_eq_getElem?_getD, List.getElem?_map, List.getElem?_range h]

lemma limitingFactorOf_eq_capillary_iff (r : Realization) :
    limitingFactorOf r = .capillary_pressure ↔
      capillaryHeightOf r < fractureHeightOf r := by
  by_cases hc : capillaryHeightOf r < fractureHeightOf r <;>
    simp [limitingFactorOf, hc]

lemma limitingFactorOf_eq_fracture_of_le {r : Realization}
    (h : fractureHeightOf r ≤ capillaryHeightOf r) :
    limitingFactorOf r = .fracture_pressure := by
  rw [limitingFactorOf, if_neg (not_lt.mpr h)]

lemma runSimulation_eq_ok {cfg : SimConfig} (h : DrawsOk cfg)
    (streamOfSeed : ℤ → ℕ → ℝ) (seed_value : ℤ) (n : ℕ) :
    runSimulation streamOfSeed cfg seed_value n =
      .ok (okRunTraces cfg (streamOfSeed seed_value) n) := by
  rw [runSimulation, okRunTraces]
  exact simLoop_eq_ok h (streamOfSeed seed_value) n 0 Traces.empty

lemma DrawsOk_defaultSimConfig : DrawsOk defaultSimConfig := by
  norm_num [DrawsOk, TriOk, defaultSimConfig, convertConfig, defaultFormConfig]

/-- Every quantity of a drawn realization lies within its configured
support (the uniform ranges assumed not inverted). -/
lemma realizationAt_mem {cfg : SimConfig} {u : ℕ → ℝ} (hu : IsUnitStream u)
    (h : DrawsOk cfg)
    (hw : cfg.water_density_range.lo ≤ cfg.water_density_range.hi)
    (hh : cfg.hydrocarbon_density_range.lo ≤ cfg.hydrocarbon_density_range.hi)
    (pos : ℕ) :
    (cfg.interfacial_tension_range.lo ≤
        (realizationAt cfg u pos).interfacial_tension ∧
      (realizationAt cfg u pos).interfacial_tension ≤
        cfg.interfacial_tension_range.hi) ∧
    (cfg.water_density_range.lo ≤ (realizationAt cfg u pos).water_density ∧
      (realizationAt cfg u pos).water_density ≤ cfg.water_density_range.hi) ∧
    (cfg.hydrocarbon_density_range.lo ≤
        (realizationAt cfg u pos).hydrocarbon_density ∧
      (realizationAt cfg u pos).hydrocarbon_density ≤
        cfg.hydrocarbon_density_range.hi) ∧
    (cfg.pore_throat_radius_range.lo ≤
        (realizationAt cfg u pos).pore_throat_radius ∧
      (realizationAt cfg u pos).pore_throat_radius ≤
        cfg.pore_throat_radius_range.hi) ∧
    (cfg.fracture_pressure_range.lo ≤
        (realizationAt cfg u pos).fracture_pressure ∧
      (realizationAt cfg u pos).fracture_pressure ≤
        cfg.fracture_pressure_range.hi) ∧
    (cfg.reservoir_pressure_range.lo ≤
        (realizationAt cfg u pos).reservoir_pressure ∧
      (realizationAt cfg u pos).reservoir_pressure ≤
        cfg.reservoir_pressure_range.hi) := by
  obtain ⟨h1, h2, h3, h4⟩ := h
  exact ⟨np_triangular_value_mem h1 (hu pos).1 (hu pos).2,
    np_random_uniform_mem hw (hu (pos + 1)).1 (hu (pos + 1)).2,
    np_random_uniform_mem hh (hu (pos + 2)).1 (hu (pos + 2)).2,
    np_triangular_value_mem h2 (hu (pos + 3)).1 (hu (pos + 3)).2,
    np_triangular_value_mem h3 (hu (pos + 4)).1 (hu (pos + 4)).2,
    np_triangular_value_mem h4 (hu (pos + 5)).1 (hu (pos + 5)).2⟩

/-- Under the scenario hypotheses of C7 every realization has a strictly
negative fracture height and a strictly positive capillary height. -/
lemma realization_heights_sign {cfg : SimConfig} {u : ℕ → ℝ}
    (hu : IsUnitStream u) (h : DrawsOk cfg)
    (hpf : cfg.fracture_pressure_range.hi < cfg.reservoir_pressure_range.lo)
    (hw : cfg.water_density_range.lo ≤ cfg.water_density_range.hi)
    (hh : cfg.hydrocarbon_density_range.lo ≤ cfg.hydrocarbon_density_range.hi)
    (hdens : cfg.hydrocarbon_density_range.hi < cfg.water_density_range.lo)
    (hit : 0 < cfg.interfacial_tension_range.lo)
    (hcos : 0 < Real.cos (math_radians cfg.contact_angle_degrees))
    (hr : 0 < cfg.pore_throat_radius_range.lo) (pos : ℕ) :
    fractureHeightOf (realizationAt cfg u pos) < 0 ∧
      0 < capillaryHeightOf (realizationAt cfg u pos) := by
  obtain ⟨hb1, hb2, hb3, hb4, hb5, hb6⟩ := realizationAt_mem hu h hw hh pos
  have hdpos : 0 < (realizationAt cfg u pos).water_density -
      (realizationAt cfg u pos).hydrocarbon_density := by
    have := hb2.1
    have := hb3.2
    linarith
  constructor
  · have hfrlt : (realizationAt cfg u pos).fracture_pressure <
        (realizationAt cfg u pos).reservoir_pressure := by
      have := hb5.2
      have := hb6.1
      linarith
    have hbody : fractureHeightOf (realizationAt cfg u pos) =
        ((realizationAt cfg u pos).fracture_pressure * 1e5 -
            (realizationAt cfg u pos).reservoir_pressure * 1e5) /
          (((realizationAt cfg u pos).water_density -
              (realizationAt cfg u pos).hydrocarbon_density) * 9.81) := rfl
    rw [hbody]
    apply div_neg_of_neg_of_pos
    · nlinarith
    · nlinarith
  · have hitpos : 0 < (realizationAt cfg u pos).interfacial_tension := by
      have := hb1.1
      linarith
    have hrpos : 0 < (realizationAt cfg u pos).pore_throat_radius := by
      have := hb4.1
      linarith
    have hbody : capillaryHeightOf (realizationAt cfg u pos) =
        (2 * (realizationAt cfg u pos).interfacial_tension *
            Real.cos (math_radians cfg.contact_angle_degrees)) /
          (((realizationAt cfg u pos).water_density -
              (realizationAt cfg u pos).hydrocarbon_density) * 9.81 *
            (realizationAt cfg u pos).pore_throat_radius) := rfl
    rw [hbody]
    apply div_pos
    · nlinarith
    · nlinarith

/-- Indexing a per-input trace of a successful run gives that input of the
`i`-th realization. -/
lemma okRunTraces_getD (p : Traces → List ℝ) (v : Realization → ℝ)
    (hfold : ∀ (rs : List Realization) (acc : Traces),
      p (rs.foldl pushRealization acc) = p acc ++ rs.map v)
    (hpe : p Traces.empty = []) {cfg : SimConfig} {u : ℕ → ℝ} {n i : ℕ}
    (hi : i < n) :
    (p (okRunTraces cfg u n)).getD i 0 = v (realizationAt cfg u (6 * i)) := by
  rw [okRunTraces, hfold, hpe, List.nil_append, List.map_map]
  simp only [Nat.zero_add]
  rw [getD_map_range (v ∘ fun k => realizationAt cfg u (6 * k)) hi]
  rfl

/- ### Claim theorems -/

/-- C2: for all inputs, the capillary-limited height function returns
`(2 τ cos(θ in radians)) / ((ρw − ρh) · 9.81 · r)`, with degrees converted
to radians by `θ · π / 180`. -/
theorem capillary_limited_height_formula (interfacial_tension
    contact_angle_degrees water_density hydrocarbon_density
    pore_throat_radius : ℝ) :
    calculate_capillary_limited_height interfacial_tension
        contact_angle_degrees water_density hydrocarbon_density
        pore_throat_radius =
      (2 * interfacial_tension *
          Real.cos (contact_angle_degrees * (Real.pi / 180))) /
        ((water_density - hydrocarbon_density) * 9.81 * pore_throat_radius) :=
  rfl

/-- C3: the fracture-pressure-limited height function converts both pressures
bar → Pa (`× 1e5`) and returns `(Pf·1e5 − Pr·1e5) / ((ρw − ρh) · 9.81)`;
when `Pf < Pr` (with `ρh < ρw`) the returned height is negative — it is
returned unchanged, not clamped to zero. -/
theorem fracture_pressure_limited_height_formula (fracture_pressure
    reservoir_pressure water_density hydrocarbon_density : ℝ) :
    calculate_fracture_pressure_limited_height fracture_pressure
        reservoir_pressure water_density hydrocarbon_density =
      (fracture_pressure * 1e5 - reservoir_pressure * 1e5) /
        ((water_density - hydrocarbon_density) * 9.81) ∧
    (fracture_pressure < reservoir_pressure →
      hydrocarbon_density < water_density →
      calculate_fracture_pressure_limited_height fracture_pressure
          reservoir_pressure water_density hydrocarbon_density < 0) := by
  refine ⟨rfl, fun hp hd => ?_⟩
  have hbody : calculate_fracture_pressure_limited_height fracture_pressure
      reservoir_pressure water_density hydrocarbon_density =
      (fracture_pressure * 1e5 - reservoir_pressure * 1e5) /
        ((water_density - hydrocarbon_density) * 9.81) := rfl
  rw [hbody]
  apply div_neg_of_neg_of_pos
  · nlinarith
  · nlinarith

/-- C3 witness: at `Pf = 100`, `Pr = 200`, `ρw = 1000`, `ρh = 300` the
height is negative. -/
theorem fracture_pressure_limited_height_formula_witness :
    ((100 : ℝ) < 200 ∧ (300 : ℝ) < 1000) ∧
      calculate_fracture_pressure_limited_height 100 200 1000 300 < 0 :=
  ⟨⟨by norm_num, by norm_num⟩,
    (fracture_pressure_limited_height_formula 100 200 1000 300).2 (by norm_num)
      (by norm_num)⟩

/-- C4: the statistics of lines 141-143 report, under the label `p10`, the
90th percentile of the raw `max_heights` sequence, under `p90` its 10th
percentile, and under `mean` the arithmetic mean `sum / length`. -/
theorem summary_stats_labels (max_heights : List ℝ) :
    (summaryStats max_heights).p10 = np_percentile max_heights 90 ∧
      (summaryStats max_heights).p90 = np_percentile max_heights 10 ∧
      (summaryStats max_heights).mean =
        max_heights.sum / (max_heights.length : ℝ) :=
  ⟨rfl, rfl, rfl⟩

/-- C9: for a nonempty `max_heights` sequence, the value labeled "P10" (the
raw 90th percentile) is at least the value labeled "P90" (the raw 10th
percentile). -/
theorem p10_label_ge_p90_label {max_heights : List ℝ} (h : max_heights ≠ []) :
    (summaryStats max_heights).p90 ≤ (summaryStats max_heights).p10 := by
  have hlen : 1 ≤ max_heights.length := List.length_pos.mpr h
  have hlenR : (1 : ℝ) ≤ (max_heights.length : ℝ) := by exact_mod_cast hlen
  have hsorted : (max_heights.mergeSort).Sorted (· ≤ ·) :=
    List.sorted_mergeSort' max_heights
  have hslen : (max_heights.mergeSort).length = max_heights.length :=
    (List.mergeSort_perm max_heights _).length_eq
  show np_percentile max_heights 10 ≤ np_percentile max_heights 90
  rw [np_percentile, np_percentile]
  apply percInterp_mono hsorted
  · nlinarith
  · nlinarith
  · rw [hslen]; nlinarith

/-- C9 witness: on the sequence `[1, 2]`. -/
theorem p10_label_ge_p90_label_witness :
    ([(1 : ℝ), 2] ≠ []) ∧
      (summaryStats [(1 : ℝ), 2]).p90 ≤ (summaryStats [(1 : ℝ), 2]).p10 :=
  ⟨by simp, p10_label_ge_p90_label (by simp)⟩

/-- C5: for a fixed seed and configuration, any two results of the run are
identical in every trace, the tally, and the derived statistics. -/
theorem run_deterministic_for_fixed_seed (streamOfSeed : ℤ → ℕ → ℝ)
    (cfg : SimConfig) (seed_value : ℤ) (num_simulations : ℕ) (t1 t2 : Traces)
    (h1 : runSimulation streamOfSeed cfg seed_value num_simulations = .ok t1)
    (h2 : runSimulation streamOfSeed cfg seed_value num_simulations = .ok t2) :
    t1.max_heights = t2.max_heights ∧
    t1.interfacial_tensions = t2.interfacial_tensions ∧
    t1.contact_angles = t2.contact_angles ∧
    t1.water_densities = t2.water_densities ∧
    t1.hydrocarbon_densities = t2.hydrocarbon_densities ∧
    t1.pore_throat_radii = t2.pore_throat_radii ∧
    t1.fracture_pressures = t2.fracture_pressures ∧
    t1.reservoir_pressures = t2.reservoir_pressures ∧
    t1.limiting_factors = t2.limiting_factors ∧
    summaryStats t1.max_heights = summaryStats t2.max_heights := by
  rw [h1] at h2
  obtain rfl : t1 = t2 := Except.ok.inj h2
  exact ⟨rfl, rfl, rfl, rfl, rfl, rfl, rfl, rfl, rfl, rfl⟩

/-- C5 witness: two runs with seed 42 on the default configuration. -/
theorem run_deterministic_for_fixed_seed_witness :
    (runSimulation halfStreamOfSeed defaultSimConfig 42 2 =
      .ok (okRunTraces defaultSimConfig (halfStreamOfSeed 42) 2)) ∧
      (okRunTraces defaultSimConfig (halfStreamOfSeed 42) 2).max_heights =
        (okRunTraces defaultSimConfig (halfStreamOfSeed 42) 2).max_heights := by
  have hok := runSimulation_eq_ok DrawsOk_defaultSimConfig halfStreamOfSeed 42 2
  exact ⟨hok, (run_deterministic_for_fixed_seed halfStreamOfSeed
    defaultSimConfig 42 2 _ _ hok hok).1⟩

/-- C1: when the run succeeds, `max_height[i]` is the minimum of the
capillary and fracture heights of realization `i`, the binding factor of
realization `i` is Capillary exactly when its capillary height is strictly
below its fracture height (ties resolving to Fracture), and the two tally
counts sum to the sample count. -/
theorem binding_rule_and_tally_partition {streamOfSeed : ℤ → ℕ → ℝ}
    {cfg : SimConfig} {seed_value : ℤ} {num_simulations : ℕ}
    (h : DrawsOk cfg) {t : Traces}
    (ht : runSimulation streamOfSeed cfg seed_value num_simulations = .ok t) :
    (∀ i < num_simulations,
      t.max_heights.getD i 0 =
        min (capillaryHeightOf
            (realizationAt cfg (streamOfSeed seed_value) (6 * i)))
          (fractureHeightOf
            (realizationAt cfg (streamOfSeed seed_value) (6 * i))) ∧
      (limitingFactorOf (realizationAt cfg (streamOfSeed seed_value) (6 * i)) =
          .capillary_pressure ↔
        capillaryHeightOf
            (realizationAt cfg (streamOfSeed seed_value) (6 * i)) <
          fractureHeightOf
            (realizationAt cfg (streamOfSeed seed_value) (6 * i)))) ∧
    t.limiting_factors.capillary_pressure +
        t.limiting_factors.fracture_pressure = num_simulations := by
  rw [runSimulation_eq_ok h streamOfSeed seed_value num_simulations] at ht
  obtain rfl : okRunTraces cfg (streamOfSeed seed_value) num_simulations = t :=
    Except.ok.inj ht
  constructor
  · intro i hi
    constructor
    · rw [okRunTraces, foldl_push_max_heights, List.map_map]
      show (Traces.empty.max_heights ++ _).getD i 0 = _
      rw [show Traces.empty.max_heights = [] from rfl, List.nil_append]
      simp only [Nat.zero_add]
      rw [getD_map_range (maxHeightOf ∘ fun k =>
        realizationAt cfg (streamOfSeed seed_value) (6 * k)) hi]
      rfl
    · exact limitingFactorOf_eq_capillary_iff _
  · rw [okRunTraces, foldl_push_tally_total]
    simp [Traces.empty]

/-- C1 witness: the default configuration, seed 42, two realizations. -/
theorem binding_rule_and_tally_partition_witness :
    (DrawsOk defaultSimConfig ∧
      runSimulation halfStreamOfSeed defaultSimConfig 42 2 =
        .ok (okRunTraces defaultSimConfig (halfStreamOfSeed 42) 2)) ∧
      (okRunTraces defaultSimConfig
            (halfStreamOfSeed 42) 2).limiting_factors.capillary_pressure +
        (okRunTraces defaultSimConfig
            (halfStreamOfSeed 42) 2).limiting_factors.fracture_pressure = 2 := by
  have hok := runSimulation_eq_ok DrawsOk_defaultSimConfig halfStreamOfSeed 42 2
  exact ⟨⟨DrawsOk_defaultSimConfig, hok⟩,
    (binding_rule_and_tally_partition DrawsOk_defaultSimConfig hok).2⟩

/-- C7: when the fracture-pressure support lies entirely below the
reservoir-pressure support and the capillary inputs are positive, every
realization has a negative fracture height, `max_height[i]` equals the
fracture height for every index, and the binding factor is Fracture for all
realizations (the Capillary tally is zero, the Fracture tally is the sample
count). -/
theorem fracture_binding_when_pressures_inverted {streamOfSeed : ℤ → ℕ → ℝ}
    {cfg : SimConfig} {seed_value : ℤ} {num_simulations : ℕ}
    (hu : IsUnitStream (streamOfSeed seed_value)) (h : DrawsOk cfg)
    (hpf : cfg.fracture_pressure_range.hi < cfg.reservoir_pressure_range.lo)
    (hw : cfg.water_density_range.lo ≤ cfg.water_density_range.hi)
    (hh : cfg.hydrocarbon_density_range.lo ≤ cfg.hydrocarbon_density_range.hi)
    (hdens : cfg.hydrocarbon_density_range.hi < cfg.water_density_range.lo)
    (hit : 0 < cfg.interfacial_tension_range.lo)
    (hcos : 0 < Real.cos (math_radians cfg.contact_angle_degrees))
    (hrad : 0 < cfg.pore_throat_radius_range.lo)
    {t : Traces}
    (ht : runSimulation streamOfSeed cfg seed_value num_simulations = .ok t) :
    (∀ i < num_simulations,
      fractureHeightOf
          (realizationAt cfg (streamOfSeed seed_value) (6 * i)) < 0 ∧
      t.max_heights.getD i 0 =
        fractureHeightOf
          (realizationAt cfg (streamOfSeed seed_value) (6 * i)) ∧
      limitingFactorOf (realizationAt cfg (streamOfSeed seed_value) (6 * i)) =
        .fracture_pressure) ∧
    t.limiting_factors.fracture_pressure = num_simulations ∧
    t.limiting_factors.capillary_pressure = 0 := by
  rw [runSimulation_eq_ok h streamOfSeed seed_value num_simulations] at ht
  obtain rfl : okRunTraces cfg (streamOfSeed seed_value) num_simulations = t :=
    Except.ok.inj ht
  have hsign := realization_heights_sign hu h hpf hw hh hdens hit hcos hrad
  have hcap0 : (okRunTraces cfg (streamOfSeed seed_value)
      num_simulations).limiting_factors.capillary_pressure = 0 := by
    rw [okRunTraces, foldl_push_tally_cap]
    have hcount : ((List.range num_simulations).map fun k =>
        realizationAt cfg (streamOfSeed seed_value) (0 + 6 * k)).countP
        (fun r => decide (capillaryHeightOf r < fractureHeightOf r)) = 0 := by
      rw [List.countP_eq_zero]
      intro r hrm
      obtain ⟨k, hk, rfl⟩ := List.mem_map.mp hrm
      obtain ⟨hneg, hpos⟩ := hsign (0 + 6 * k)
      simp only [decide_eq_true_eq]
      exact not_lt.mpr (le_of_lt (lt_trans hneg hpos))
    rw [hcount]
    simp [Traces.empty]
  refine ⟨?_, ?_, hcap0⟩
  · intro i hi
    obtain ⟨hneg, hpos⟩ := hsign (6 * i)
    refine ⟨hneg, ?_,
      limitingFactorOf_eq_fracture_of_le (le_of_lt (lt_trans hneg hpos))⟩
    rw [okRunTraces_getD Traces.max_heights maxHeightOf
      foldl_push_max_heights rfl hi]
    exact min_eq_right (le_of_lt (lt_trans hneg hpos))
  · have htot := foldl_push_tally_total ((List.range num_simulations).map
      fun k => realizationAt cfg (streamOfSeed seed_value) (0 + 6 * k))
      Traces.empty
    have he1 : Traces.empty.limiting_factors.capillary_pressure = 0 := rfl
    have he2 : Traces.empty.limiting_factors.fracture_pressure = 0 := rfl
    rw [he1, he2] at htot
    simp only [List.length_map, List.length_range] at htot
    rw [okRunTraces] at hcap0 ⊢
    omega

/-- C7 witness: fracture pressures 100-102 bar against reservoir pressures
200-202 bar, two realizations. -/
theorem fracture_binding_when_pressures_inverted_witness :
    (IsUnitStream (halfStreamOfSeed 42) ∧ DrawsOk invertedPressuresConfig ∧
      invertedPressuresConfig.fracture_pressure_range.hi <
        invertedPressuresConfig.reservoir_pressure_range.lo) ∧
    (okRunTraces invertedPressuresConfig
        (halfStreamOfSeed 42) 2).limiting_factors.fracture_pressure = 2 ∧
    (okRunTraces invertedPressuresConfig
        (halfStreamOfSeed 42) 2).limiting_factors.capillary_pressure = 0 := by
  have hu : IsUnitStream (halfStreamOfSeed 42) := by
    intro n
    constructor
    · norm_num [halfStreamOfSeed, halfStream]
    · norm_num [halfStreamOfSeed, halfStream]
  have hok : DrawsOk invertedPressuresConfig := by
    norm_num [DrawsOk, TriOk, invertedPressuresConfig]
  have hpf : invertedPressuresConfig.fracture_pressure_range.hi <
      invertedPressuresConfig.reservoir_pressure_range.lo := by
    norm_num [invertedPressuresConfig]
  have hcos : 0 < Real.cos
      (math_radians invertedPressuresConfig.contact_angle_degrees) := by
    have hzero : math_radians invertedPressuresConfig.contact_angle_degrees = 0 := by
      norm_num [math_radians, invertedPressuresConfig]
    rw [hzero, Real.cos_zero]
    norm_num
  have ht := runSimulation_eq_ok hok halfStreamOfSeed 42 2
  exact ⟨⟨hu, hok, hpf⟩,
    (fracture_binding_when_pressures_inverted hu hok hpf
      (by norm_num [invertedPressuresConfig])
      (by norm_num [invertedPressuresConfig])
      (by norm_num [invertedPressuresConfig])
      (by norm_num [invertedPressuresConfig]) hcos
      (by norm_num [invertedPressuresConfig]) ht).2⟩

/-- C8: a draw with `ρw < ρh` yields a negative capillary height which is
propagated into `max_heights` without being discarded, clamped or aborting
the run: the loop still completes all iterations (the trace has full length)
and the stored value is `min(capillary, fracture)`, which is at most the
negative capillary height. -/
theorem nonphysical_draw_propagates {streamOfSeed : ℤ → ℕ → ℝ}
    {cfg : SimConfig} {seed_value : ℤ} {num_simulations : ℕ}
    (h : DrawsOk cfg) {t : Traces}
    (ht : runSimulation streamOfSeed cfg seed_value num_simulations = .ok t)
    {i : ℕ} (hi : i < num_simulations)
    (hwd : (realizationAt cfg (streamOfSeed seed_value) (6 * i)).water_density <
      (realizationAt cfg (streamOfSeed seed_value) (6 * i)).hydrocarbon_density)
    (hitpos : 0 <
      (realizationAt cfg (streamOfSeed seed_value) (6 * i)).interfacial_tension)
    (hcos : 0 < Real.cos (math_radians cfg.contact_angle_degrees))
    (hptr : 0 <
      (realizationAt cfg (streamOfSeed seed_value) (6 * i)).pore_throat_radius) :
    t.max_heights.length = num_simulations ∧
    capillaryHeightOf (realizationAt cfg (streamOfSeed seed_value) (6 * i)) < 0 ∧
    t.max_heights.getD i 0 =
      min (capillaryHeightOf (realizationAt cfg (streamOfSeed seed_value) (6 * i)))
        (fractureHeightOf (realizationAt cfg (streamOfSeed seed_value) (6 * i))) ∧
    t.max_heights.getD i 0 ≤
      capillaryHeightOf (realizationAt cfg (streamOfSeed seed_value) (6 * i)) := by
  rw [runSimulation_eq_ok h streamOfSeed seed_value num_simulations] at ht
  obtain rfl : okRunTraces cfg (streamOfSeed seed_value) num_simulations = t :=
    Except.ok.inj ht
  have hcap : capillaryHeightOf
      (realizationAt cfg (streamOfSeed seed_value) (6 * i)) < 0 := by
    have hbody : capillaryHeightOf
        (realizationAt cfg (streamOfSeed seed_value) (6 * i)) =
        (2 * (realizationAt cfg (streamOfSeed seed_value)
              (6 * i)).interfacial_tension *
            Real.cos (math_radians cfg.contact_angle_degrees)) /
          (((realizationAt cfg (streamOfSeed seed_value) (6 * i)).water_density -
              (realizationAt cfg (streamOfSeed seed_value)
                (6 * i)).hydrocarbon_density) * 9.81 *
            (realizationAt cfg (streamOfSeed seed_value)
              (6 * i)).pore_throat_radius) := rfl
    rw [hbody]
    apply div_neg_of_pos_of_neg
    · nlinarith
    · nlinarith
  have hgetD := @okRunTraces_getD Traces.max_heights maxHeightOf
    foldl_push_max_heights rfl cfg (streamOfSeed seed_value) num_simulations
    i hi
  refine ⟨?_, hcap, hgetD, ?_⟩
  · rw [okRunTraces, foldl_push_max_heights]
    simp [Traces.empty]
  · rw [hgetD]
    exact min_le_left _ _

/-- C8 witness: water density 300 against hydrocarbon density 1000, index 0
of a two-realization run. -/
theorem nonphysical_draw_propagates_witness :
    ((realizationAt invertedDensityConfig
        (halfStreamOfSeed 42) (6 * 0)).water_density <
      (realizationAt invertedDensityConfig
        (halfStreamOfSeed 42) (6 * 0)).hydrocarbon_density) ∧
    (okRunTraces invertedDensityConfig
        (halfStreamOfSeed 42) 2).max_heights.length = 2 ∧
    capillaryHeightOf
      (realizationAt invertedDensityConfig (halfStreamOfSeed 42) (6 * 0)) < 0 := by
  have hok : DrawsOk invertedDensityConfig := by
    norm_num [DrawsOk, TriOk, invertedDensityConfig]
  have ht := runSimulation_eq_ok hok halfStreamOfSeed 42 2
  have hwd : (realizationAt invertedDensityConfig
      (halfStreamOfSeed 42) (6 * 0)).water_density <
      (realizationAt invertedDensityConfig
        (halfStreamOfSeed 42) (6 * 0)).hydrocarbon_density := by
    have h1 : (realizationAt invertedDensityConfig
        (halfStreamOfSeed 42) (6 * 0)).water_density =
        np_random_uniform ⟨300, 300⟩ (halfStreamOfSeed 42 (6 * 0 + 1)) := rfl
    have h2 : (realizationAt invertedDensityConfig
        (halfStreamOfSeed 42) (6 * 0)).hydrocarbon_density =
        np_random_uniform ⟨1000, 1000⟩ (halfStreamOfSeed 42 (6 * 0 + 2)) := rfl
    rw [h1, h2]
    norm_num [np_random_uniform]
  have hitpos : 0 < (realizationAt invertedDensityConfig
      (halfStreamOfSeed 42) (6 * 0)).interfacial_tension := by
    have hmem := np_triangular_value_mem
      (show TriOk (⟨0.03, 0.04, 0.05⟩ : Tri) by norm_num [TriOk])
      (show (0 : ℝ) ≤ 1 / 2 by norm_num) (show (1 : ℝ) / 2 < 1 by norm_num)
    have heq : (realizationAt invertedDensityConfig
        (halfStreamOfSeed 42) (6 * 0)).interfacial_tension =
        np_triangular_value ⟨0.03, 0.04, 0.05⟩ (1 / 2) := rfl
    rw [heq]
    linarith [hmem.1]
  have hcos : 0 < Real.cos
      (math_radians invertedDensityConfig.contact_angle_degrees) := by
    have hzero : math_radians invertedDensityConfig.contact_angle_degrees = 0 := by
      norm_num [math_radians, invertedDensityConfig]
    rw [hzero, Real.cos_zero]
    norm_num
  have hptr : 0 < (realizationAt invertedDensityConfig
      (halfStreamOfSeed 42) (6 * 0)).pore_throat_radius := by
    have hmem := np_triangular_value_mem
      (show TriOk (⟨1e-8, 2e-8, 3e-8⟩ : Tri) by norm_num [TriOk])
      (show (0 : ℝ) ≤ 1 / 2 by norm_num) (show (1 : ℝ) / 2 < 1 by norm_num)
    have heq : (realizationAt invertedDensityConfig
        (halfStreamOfSeed 42) (6 * 0)).pore_throat_radius =
        np_triangular_value ⟨1e-8, 2e-8, 3e-8⟩ (1 / 2) := rfl
    rw [heq]
    linarith [hmem.1]
  obtain ⟨hlen, hneg, hmin, hle⟩ := nonphysical_draw_propagates hok ht
    (show 0 < 2 by norm_num) hwd hitpos hcos hptr
  exact ⟨hwd, hlen, hneg⟩

/-- C10: on a successful run over a unit-uniform stream, every element of
every per-input sample trace lies within the unit-converted support of its
configured distribution. -/
theorem draws_within_configured_support {streamOfSeed : ℤ → ℕ → ℝ}
    {f : FormConfig} {seed_value : ℤ} {num_simulations : ℕ}
    (hu : IsUnitStream (streamOfSeed seed_value))
    (h : DrawsOk (convertConfig f))
    (hw : (convertConfig f).water_density_range.lo ≤
      (convertConfig f).water_density_range.hi)
    (hh : (convertConfig f).hydrocarbon_density_range.lo ≤
      (convertConfig f).hydrocarbon_density_range.hi)
    {t : Traces}
    (ht : runSimulation streamOfSeed (convertConfig f) seed_value
      num_simulations = .ok t) :
    ∀ i < num_simulations,
      ((convertConfig f).interfacial_tension_range.lo ≤
          t.interfacial_tensions.getD i 0 ∧
        t.interfacial_tensions.getD i 0 ≤
          (convertConfig f).interfacial_tension_range.hi) ∧
      ((convertConfig f).water_density_range.lo ≤
          t.water_densities.getD i 0 ∧
        t.water_densities.getD i 0 ≤
          (convertConfig f).water_density_range.hi) ∧
      ((convertConfig f).hydrocarbon_density_range.lo ≤
          t.hydrocarbon_densities.getD i 0 ∧
        t.hydrocarbon_densities.getD i 0 ≤
          (convertConfig f).hydrocarbon_density_range.hi) ∧
      ((convertConfig f).pore_throat_radius_range.lo ≤
          t.pore_throat_radii.getD i 0 ∧
        t.pore_throat_radii.getD i 0 ≤
          (convertConfig f).pore_throat_radius_range.hi) ∧
      ((convertConfig f).fracture_pressure_range.lo ≤
          t.fracture_pressures.getD i 0 ∧
        t.fracture_pressures.getD i 0 ≤
          (convertConfig f).fracture_pressure_range.hi) ∧
      ((convertConfig f).reservoir_pressure_range.lo ≤
          t.reservoir_pressures.getD i 0 ∧
        t.reservoir_pressures.getD i 0 ≤
          (convertConfig f).reservoir_pressure_range.hi) := by
  rw [runSimulation_eq_ok h streamOfSeed seed_value num_simulations] at ht
  obtain rfl : okRunTraces (convertConfig f) (streamOfSeed seed_value)
      num_simulations = t := Except.ok.inj ht
  intro i hi
  obtain ⟨hb1, hb2, hb3, hb4, hb5, hb6⟩ :=
    realizationAt_mem hu h hw hh (6 * i)
  rw [okRunTraces_getD Traces.interfacial_tensions
      Realization.interfacial_tension foldl_push_interfacial_tensions rfl hi,
    okRunTraces_getD Traces.water_densities Realization.water_density
      foldl_push_water_densities rfl hi,
    okRunTraces_getD Traces.hydrocarbon_densities
      Realization.hydrocarbon_density foldl_push_hydrocarbon_densities rfl hi,
    okRunTraces_getD Traces.pore_throat_radii Realization.pore_throat_radius
      foldl_push_pore_throat_radii rfl hi,
    okRunTraces_getD Traces.fracture_pressures Realization.fracture_pressure
      foldl_push_fracture_pressures rfl hi,
    okRunTraces_getD Traces.reservoir_pressures Realization.reservoir_pressure
      foldl_push_reservoir_pressures rfl hi]
  exact ⟨hb1, hb2, hb3, hb4, hb5, hb6⟩

/-- C10 witness: the default form configuration, two realizations, index 0. -/
theorem draws_within_configured_support_witness :
    (IsUnitStream (halfStreamOfSeed 42) ∧
      DrawsOk (convertConfig defaultFormConfig)) ∧
    ((convertConfig defaultFormConfig).interfacial_tension_range.lo ≤
        (okRunTraces (convertConfig defaultFormConfig)
          (halfStreamOfSeed 42) 2).interfacial_tensions.getD 0 0 ∧
      (okRunTraces (convertConfig defaultFormConfig)
          (halfStreamOfSeed 42) 2).interfacial_tensions.getD 0 0 ≤
        (convertConfig defaultFormConfig).interfacial_tension_range.hi) := by
  have hu : IsUnitStream (halfStreamOfSeed 42) := by
    intro n
    constructor
    · norm_num [halfStreamOfSeed, halfStream]
    · norm_num [halfStreamOfSeed, halfStream]
  have hok : DrawsOk (convertConfig defaultFormConfig) :=
    DrawsOk_defaultSimConfig
  have hw : (convertConfig defaultFormConfig).water_density_range.lo ≤
      (convertConfig defaultFormConfig).water_density_range.hi := by
    norm_num [convertConfig, defaultFormConfig]
  have hh : (convertConfig defaultFormConfig).hydrocarbon_density_range.lo ≤
      (convertConfig defaultFormConfig).hydrocarbon_density_range.hi := by
    norm_num [convertConfig, defaultFormConfig]
  have ht := runSimulation_eq_ok hok halfStreamOfSeed 42 2
  exact ⟨⟨hu, hok⟩,
    (draws_within_configured_support hu hok hw hh ht 0 (by norm_num)).1⟩

/-- C6 (amended): the source performs no configuration-build-time
validation.  A malformed triangular range (`min > mode`, `mode > max`, or
`min = max`) makes the first `np.random.triangular` call of the first loop
iteration raise, so a run of at least one iteration aborts with an error and
produces no traces; a malformed uniform range (`min > max`) is not rejected
at all: whenever the triangular ranges pass numpy's check the run completes
every iteration regardless of the uniform ranges. -/
theorem invalid_distribution_amended (cfg : SimConfig) (u : ℕ → ℝ) {n : ℕ}
    (hn : 1 ≤ n) :
    (¬ DrawsOk cfg → ∃ e, simLoop cfg u n 0 Traces.empty = .error e) ∧
    (DrawsOk cfg → ∃ t, simLoop cfg u n 0 Traces.empty = .ok t ∧
      t.max_heights.length = n) := by
  constructor
  · intro hbad
    exact simLoop_is_error hbad u hn 0 Traces.empty
  · intro hok
    refine ⟨_, simLoop_eq_ok hok u n 0 Traces.empty, ?_⟩
    rw [foldl_push_max_heights]
    simp [Traces.empty]

/-- C6 amended-claim witness: three iterations on the configuration with the
inverted water-density range. -/
theorem invalid_distribution_amended_witness :
    (1 ≤ 3) ∧
    ((¬ DrawsOk badUniformConfig →
        ∃ e, simLoop badUniformConfig halfStream 3 0 Traces.empty = .error e) ∧
      (DrawsOk badUniformConfig →
        ∃ t, simLoop badUniformConfig halfStream 3 0 Traces.empty = .ok t ∧
          t.max_heights.length = 3)) :=
  ⟨by norm_num,
    invalid_distribution_amended badUniformConfig halfStream (by norm_num)⟩

/-- C6 counterexample: the configuration with water-density range inverted
(min 2000 > max 1000) is a malformed-distribution configuration, yet the run
is not rejected — it completes and produces all three `max_heights`
elements, contradicting the claim that no trace element is ever produced. -/
theorem no_config_time_validation_counterexample :
    badUniformConfig.water_density_range.hi <
      badUniformConfig.water_density_range.lo ∧
    ∃ t, simLoop badUniformConfig halfStream 3 0 Traces.empty = .ok t ∧
      t.max_heights.length = 3 := by
  constructor
  · norm_num [badUniformConfig, defaultSimConfig, convertConfig,
      defaultFormConfig]
  · have hok : DrawsOk badUniformConfig := by
      norm_num [DrawsOk, TriOk, badUniformConfig, defaultSimConfig,
        convertConfig, defaultFormConfig]
    refine ⟨_, simLoop_eq_ok hok halfStream 3 0 Traces.empty, ?_⟩
    rw [foldl_push_max_heights]
    simp [Traces.empty]

end HydrocarbonSimulator
